import Mathlib

/-!
# Shallow embedding of `src/lambdas/aws_acm_cert_validator/logic.py`

The Python module `AwsAcmCertValidatorLogic` drives ACM certificate issuance
with DNS validation: it requests a certificate, polls for the DNS challenge
record, publishes it to Route53, polls the validation status, and can remove
the record again.

The embedding below models the AWS SDK as explicit oracles:

* `describe : Nat -> ...` gives the response of the n-th
  `acm.describe_certificate` call (the certificate's validation options, or
  its validation status), so polling loops become fuel-indexed recursions
  over the poll counter;
* `lookup : Route53Client -> String -> List HostedZone` gives the zones
  returned by `route53.list_hosted_zones_by_name(DNSName=...)`, dependent on
  which client identity performs the call;
* `time.sleep` calls are recorded in a `sleeps` list instead of elapsing,
  and `time.time() - start` is the sum of the sleeps performed so far
  (polls themselves are instantaneous in the model);
* `uuid.uuid4()` is a string parameter supplied per call;
* Python exceptions become the `PyError` sum: `TypeError` from the
  membership test on `None`, `ValueError` from `str.index`, `IndexError`
  from `[0]` on an empty list, and `Exception(msg)` from explicit raises.

Route53 side effects (`list_hosted_zones_by_name`,
`change_resource_record_sets`) are collected in an `R53Trace` so that the
theorems can speak about exactly which DNS calls a run issues.
-/

namespace Acm

/-- One certificate tag, as in the `Tags` entry of the resource properties. -/
structure Tag where
  key : String
  value : String
deriving DecidableEq

/-- The `ResourceProperties` object of the custom-resource event.
`tags` is `some ts` exactly when the dict has a `Tags` key, and
`crossAccountRole` is `some r` exactly when it has a
`CrossAccountDNSZoneIAMRole` key. -/
structure ResourceProps where
  tags : Option (List Tag)
  crossAccountRole : Option String
deriving DecidableEq

/-- The invocation event dict. `topLevelRole` is `some r` exactly when the
event itself (not its `ResourceProperties`) has a `CrossAccountDNSZoneIAMRole`
key; this is the level tested by `_route53_client`'s membership check
`'CrossAccountDNSZoneIAMRole' in event`. -/
structure Event where
  resourceProperties : ResourceProps
  topLevelRole : Option String
deriving DecidableEq

/-- Python exceptions the module can raise. -/
inductive PyError where
  | typeError
  | valueError
  | indexError
  | exceptionMsg (msg : String)
deriving DecidableEq

/-- Result of a Python call: a value, or a raised exception. -/
inductive PyResult (a : Type) where
  | ok (val : a)
  | raised (e : PyError)
deriving DecidableEq

/-- The DNS validation record ACM hands back
(`validation_options['ResourceRecord']`): name, type, value. -/
structure DnsRecord where
  name : String
  type : String
  value : String
deriving DecidableEq

/-- One entry of `DomainValidationOptions`: the domain it validates and,
once ACM has produced it, the `ResourceRecord` challenge. -/
structure VOption where
  domainName : String
  resourceRecord : Option DnsRecord
deriving DecidableEq

/-- The `ResourceRecordSet` dict of a Route53 change. -/
structure ResourceRecordSet where
  name : String
  type : String
  ttl : Nat
  resourceRecords : List String
deriving DecidableEq

/-- One element of a change batch's `Changes` list. -/
structure Change where
  action : String
  resourceRecordSet : ResourceRecordSet
deriving DecidableEq

/-- A `ChangeBatch` argument of `change_resource_record_sets`. -/
structure ChangeBatch where
  comment : String
  changes : List Change
deriving DecidableEq

/-- A hosted zone as returned by `list_hosted_zones_by_name`. -/
structure HostedZone where
  id : String
deriving DecidableEq

/-- The identity a Route53 client operates under: the default caller
identity from `boto3.client('route53')`, or a client built on a
`boto3.Session` holding the credentials returned by
`sts.assume_role(RoleArn=roleArn, RoleSessionName=sessionName)`. -/
inductive Route53Client where
  | defaultClient
  | assumed (roleArn : String) (sessionName : String)
deriving DecidableEq

/-- A `boto3` session: the default one, or one created from the temporary
credentials of an assumed role. -/
inductive SessionModel where
  | defaultSession
  | assumedSession (roleArn : String) (sessionName : String)
deriving DecidableEq

/-- One `list_hosted_zones_by_name` call: the client that made it and the
`DNSName` argument. -/
structure LookupCall where
  client : Route53Client
  dnsName : String
deriving DecidableEq

/-- One `change_resource_record_sets` call: the client that made it, the
`HostedZoneId`, and the `ChangeBatch`. -/
structure ChangeCall where
  client : Route53Client
  hostedZoneId : String
  changeBatch : ChangeBatch
deriving DecidableEq

/-- The Route53 calls a run issued, in order. -/
structure R53Trace where
  lookups : List LookupCall
  changes : List ChangeCall
deriving DecidableEq

/-- `_get_role_session`: with a role ARN, assume it via STS (the session
name is the fresh `uuid.uuid4()` string) and build a session from the
returned credentials; with `None`, fall back to the default session. -/
def get_role_session (uuid : String) : Option String → SessionModel
  | some role => .assumedSession role uuid
  | none => .defaultSession

/-- `session.client('route53', region_name=region)` on the session produced
by `_get_session`. -/
def sessionClient : SessionModel → Route53Client
  | .assumedSession r s => .assumed r s
  | .defaultSession => .defaultClient

/-- The client `_route53_client` builds for a (non-`None`) event: the code
tests `'CrossAccountDNSZoneIAMRole' in event` on the event's own keys, so
only `topLevelRole` decides between the assumed-role session and the
default client. -/
def route53ClientOf (uuid : String) (ev : Event) : Route53Client :=
  match ev.topLevelRole with
  | some role => sessionClient (get_role_session uuid (some role))
  | none => .defaultClient

/-- `_route53_client(event)`: on `event=None` the membership test
`'CrossAccountDNSZoneIAMRole' in None` raises `TypeError`. -/
def route53_client (uuid : String) : Option Event → PyResult Route53Client
  | none => .raised .typeError
  | some ev => .ok (route53ClientOf uuid ev)

/-- Python's `s.index('.')` over the character list: index of the first
`'.'`, or `none` where Python raises `ValueError`. -/
def indexOfDot : List Char → Option Nat
  | [] => none
  | c :: cs => if c = '.' then some 0 else (indexOfDot cs).map (· + 1)

/-- The zone-derivation expression `domain[domain.index('.') + 1:]` used by
both `validate` and `remove_validation_record`; `none` models the
`ValueError` raised when the domain has no dot. -/
def deriveZone (d : String) : Option String :=
  match indexOfDot d.toList with
  | none => none
  | some i => some (String.mk (d.toList.drop (i + 1)))

/-- The message of the exception raised when no hosted zone matches. -/
def zoneNotFoundMsg (dns_zone : String) : String :=
  "Zone " ++ dns_zone ++ " is not managed via Route53 in this AWS Account"

/-- The `update_request` dict of `_create_route53_record`. -/
def upsert_update_request (validated_domain : String) (rec : DnsRecord) : ChangeBatch :=
  { comment := "Certification validation for " ++ validated_domain
  , changes :=
      [ { action := "UPSERT"
        , resourceRecordSet :=
            { name := rec.name
            , type := rec.type
            , ttl := 60
            , resourceRecords := [rec.value] } } ] }

/-- The `update_request` dict of `remove_validation_record`. -/
def delete_update_request (domain : String) (rec : DnsRecord) : ChangeBatch :=
  { comment := "Remove certification validation for " ++ domain
  , changes :=
      [ { action := "DELETE"
        , resourceRecordSet :=
            { name := rec.name
            , type := rec.type
            , ttl := 60
            , resourceRecords := [rec.value] } } ] }

/-- `_create_route53_record(dns_record, validated_domain, dns_zone, event)`:
resolve the client, list zones by name, raise if none, else upsert the
validation record into the first zone. The returned trace records the
Route53 calls actually made. -/
def create_route53_record (lookup : Route53Client → String → List HostedZone)
    (dns_record : DnsRecord) (validated_domain dns_zone : String)
    (event : Option Event) (uuid : String) : PyResult Unit × R53Trace :=
  match route53_client uuid event with
  | .raised e => (.raised e, ⟨[], []⟩)
  | .ok client =>
    match lookup client dns_zone with
    | [] => (.raised (.exceptionMsg (zoneNotFoundMsg dns_zone)), ⟨[⟨client, dns_zone⟩], []⟩)
    | z :: _ =>
      (.ok (), ⟨[⟨client, dns_zone⟩],
        [⟨client, z.id, upsert_update_request validated_domain dns_record⟩]⟩)

/-- `remove_validation_record(domain, dns_record, event)`: derive the zone
from the domain (first-dot split), resolve the client, list zones by name,
raise if none, else issue the DELETE change against the first zone. -/
def remove_validation_record (lookup : Route53Client → String → List HostedZone)
    (domain : String) (dns_record : DnsRecord)
    (event : Option Event) (uuid : String) : PyResult Unit × R53Trace :=
  match deriveZone domain with
  | none => (.raised .valueError, ⟨[], []⟩)
  | some dns_zone =>
    match route53_client uuid event with
    | .raised e => (.raised e, ⟨[], []⟩)
    | .ok client =>
      match lookup client dns_zone with
      | [] => (.raised (.exceptionMsg (zoneNotFoundMsg dns_zone)), ⟨[⟨client, dns_zone⟩], []⟩)
      | z :: _ =>
        (.ok (), ⟨[⟨client, dns_zone⟩],
          [⟨client, z.id, delete_update_request domain dns_record⟩]⟩)

/-- `request(domain_name, event)`: `acm.request_certificate` (its response
`CertificateArn` is the `acmArn` oracle argument), then
`add_tags_to_certificate` exactly when the event is present and its
`ResourceProperties` has a `Tags` key. Returns the ARN and the list of
add-tags calls made (ARN tagged, tags applied). -/
def request (acmArn : String) (event : Option Event) :
    String × List (String × List Tag) :=
  match event with
  | none => (acmArn, [])
  | some ev =>
    match ev.resourceProperties.tags with
    | some tags => (acmArn, [(acmArn, tags)])
    | none => (acmArn, [])

/-- Result of the `validate` polling loop over
`describe_certificate(...)['Certificate']['DomainValidationOptions'][0]`. -/
inductive PollOutcome where
  | found (record : DnsRecord) (domainName : String)
  | indexError
  | diverge
deriving DecidableEq

/-- Outcome of the poll loop plus its observable effects: number of
`describe_certificate` calls and the sleeps performed. -/
structure PollResult where
  outcome : PollOutcome
  polls : Nat
  sleeps : List Nat
deriving DecidableEq

/-- The `while 'ResourceRecord' not in validation_options` loop of
`validate`: each iteration reads `DomainValidationOptions[0]` of the
`pollIdx`-th describe response (raising `IndexError` on an empty list),
exits with the record and the domain once `ResourceRecord` is present, and
otherwise does `time.sleep(5)` and re-polls. `fuel` bounds the recursion of
the model only; the Python loop is unbounded. -/
def validateLoop (describe : Nat → List VOption) : Nat → Nat → PollResult
  | 0, pollIdx => ⟨.diverge, pollIdx, []⟩
  | fuel + 1, pollIdx =>
    match describe pollIdx with
    | [] => ⟨.indexError, pollIdx + 1, []⟩
    | vo :: _ =>
      match vo.resourceRecord with
      | some r => ⟨.found r vo.domainName, pollIdx + 1, []⟩
      | none =>
        let pr := validateLoop describe fuel (pollIdx + 1)
        ⟨pr.outcome, pr.polls, 5 :: pr.sleeps⟩

/-- What a `validate` run produced. -/
inductive ValidateOutcome where
  | ok (record : DnsRecord)
  | err (e : PyError)
  | diverge
deriving DecidableEq

/-- A `validate` run: its outcome, the describe polls and sleeps of its
waiting loop, and the Route53 calls it issued. -/
structure ValidateResult where
  outcome : ValidateOutcome
  polls : Nat
  sleeps : List Nat
  trace : R53Trace
deriving DecidableEq

/-- `validate(cert_arn, event)`: poll until the first validation option
carries a `ResourceRecord`, take its record and `DomainName`, derive the
zone by the first-dot split, publish the record via
`_create_route53_record`, and return the record. -/
def validate (describe : Nat → List VOption)
    (lookup : Route53Client → String → List HostedZone)
    (cert_arn : String) (event : Option Event) (uuid : String)
    (fuel : Nat) : ValidateResult :=
  let pr := validateLoop describe fuel 0
  match pr.outcome with
  | .diverge => ⟨.diverge, pr.polls, pr.sleeps, ⟨[], []⟩⟩
  | .indexError => ⟨.err .indexError, pr.polls, pr.sleeps, ⟨[], []⟩⟩
  | .found rec validated_domain =>
    match deriveZone validated_domain with
    | none => ⟨.err .valueError, pr.polls, pr.sleeps, ⟨[], []⟩⟩
    | some validated_domain_zone =>
      match create_route53_record lookup rec validated_domain validated_domain_zone event uuid with
      | (.raised e, tr) => ⟨.err e, pr.polls, pr.sleeps, tr⟩
      | (.ok _, tr) => ⟨.ok rec, pr.polls, pr.sleeps, tr⟩

/-- What a `wait_cert_validated` run produced: the ARN on success, `None`
on a timeout with `return_empty_on_timeout`, or the timeout exception
with the subject and the seconds figure interpolated into its message. -/
inductive WaitOutcome where
  | success (cert_arn : String)
  | nullResult
  | timeoutErr (subject : String) (maxWaitSecs : Nat)
  | diverge
deriving DecidableEq

/-- A `wait_cert_validated` run: its outcome, the number of
`describe_certificate` polls, and the sleeps performed, in order. -/
structure WaitResult where
  outcome : WaitOutcome
  polls : Nat
  sleeps : List Nat
deriving DecidableEq

/-- The `while validation_status is None or validation_status != 'SUCCESS'`
loop of `wait_cert_validated`. `status pollIdx` is the `ValidationStatus`
of the `pollIdx`-th describe response; `elapsed` is `time.time() - start`,
which in this model is the total time slept so far. A non-`SUCCESS` poll
with the budget exhausted returns `None` or raises; otherwise the
iteration sleeps `wait_interval_secs`, clipped to `max_wait_secs - elapsed`
when it would overshoot. `fuel` bounds the model's recursion only. -/
def waitLoop (status : Nat → String) (subject cert_arn : String)
    (max_wait_secs wait_interval_secs : Nat) (return_empty_on_timeout : Bool) :
    Nat → Nat → Nat → WaitResult
  | 0, pollIdx, _ => ⟨.diverge, pollIdx, []⟩
  | fuel + 1, pollIdx, elapsed =>
    if status pollIdx = "SUCCESS" then
      ⟨.success cert_arn, pollIdx + 1, []⟩
    else if max_wait_secs ≤ elapsed then
      if return_empty_on_timeout then ⟨.nullResult, pollIdx + 1, []⟩
      else ⟨.timeoutErr subject max_wait_secs, pollIdx + 1, []⟩
    else
      let sleep_time :=
        if max_wait_secs < wait_interval_secs + elapsed then max_wait_secs - elapsed
        else wait_interval_secs
      let r := waitLoop status subject cert_arn max_wait_secs wait_interval_secs
        return_empty_on_timeout fuel (pollIdx + 1) (elapsed + sleep_time)
      ⟨r.outcome, r.polls, sleep_time :: r.sleeps⟩

/-- `wait_cert_validated(cert_arn, max_wait_secs, wait_interval_secs,
return_empty_on_timeout)`: run the wait loop from poll 0 and elapsed 0.
`subject` is the certificate's `Subject` field from the describe
responses. -/
def wait_cert_validated (status : Nat → String) (subject cert_arn : String)
    (max_wait_secs wait_interval_secs : Nat) (return_empty_on_timeout : Bool)
    (fuel : Nat) : WaitResult :=
  waitLoop status subject cert_arn max_wait_secs wait_interval_secs
    return_empty_on_timeout fuel 0 0

/-! ## Concrete fixtures used by witnesses and counterexamples -/

/-- A validation record like those ACM issues. -/
def sampleRec : DnsRecord :=
  ⟨"_x1.app.example.com.", "CNAME", "_v1.acm-validations.aws."⟩

/-- Challenge record of the first validation option in the mismatch
fixture. -/
def cxRec1 : DnsRecord :=
  ⟨"_a.other.example.com.", "CNAME", "_va.acm-validations.aws."⟩

/-- Challenge record of the second validation option in the mismatch
fixture. -/
def cxRec2 : DnsRecord :=
  ⟨"_b.app.example.com.", "CNAME", "_vb.acm-validations.aws."⟩

/-- Describe oracle whose first validation option is for a different
domain than the one the certificate was requested for
(`app.example.com`). -/
def cxDescribe : Nat → List VOption :=
  fun _ => [⟨"other.example.com", some cxRec1⟩, ⟨"app.example.com", some cxRec2⟩]

/-- Describe oracle that has no challenge record on poll 0 and produces one
from poll 1 on. -/
def laterDescribe : Nat → List VOption :=
  fun pollIdx =>
    if pollIdx = 0 then [⟨"app.example.com", none⟩]
    else [⟨"app.example.com", some cxRec2⟩]

/-- Zone lookup oracle managing one hosted zone for every query. -/
def oneZoneLookup : Route53Client → String → List HostedZone :=
  fun _ _ => [⟨"Z0011223344"⟩]

/-- Zone lookup oracle managing no hosted zone at all. -/
def emptyLookup : Route53Client → String → List HostedZone :=
  fun _ _ => []

/-- An event with no tags and no cross-account role anywhere. -/
def plainEvent : Event := ⟨⟨none, none⟩, none⟩

/-- An event whose `ResourceProperties` carry a
`CrossAccountDNSZoneIAMRole`, while the event's own keys do not: the shape
the spec's invocation contract describes. -/
def propsRoleEvent : Event :=
  ⟨⟨none, some "arn:aws:iam::111122223333:role/dns-zone-role"⟩, none⟩

/-- An event carrying some tags. -/
def taggedEvent : Event := ⟨⟨some [⟨"Environment", "prod"⟩], none⟩, none⟩

/-- Status oracle that never reports `SUCCESS`. -/
def stNever : Nat → String := fun _ => "PENDING_VALIDATION"

/-- Status oracle that reports `SUCCESS` from the third poll on. -/
def stThird : Nat → String :=
  fun pollIdx => if 2 ≤ pollIdx then "SUCCESS" else "PENDING_VALIDATION"

/-! ## Invariants of the polling loops -/

theorem indexOfDot_append (pre post : List Char) (h : '.' ∉ pre) :
    indexOfDot (pre ++ '.' :: post) = some pre.length := by
  induction pre with
  | nil => simp [indexOfDot]
  | cons a as ih =>
    have ha : a ≠ '.' := fun hh => h (hh ▸ List.mem_cons_self a as)
    have h2 : '.' ∉ as := fun hm => h (List.mem_cons_of_mem a hm)
    simp [indexOfDot, ha, ih h2]

theorem drop_after_dot (pre post : List Char) :
    (pre ++ '.' :: post).drop (pre.length + 1) = post := by
  induction pre with
  | nil => simp
  | cons a as ih => simp [ih]

theorem deriveZone_split (pre post : List Char) (h : '.' ∉ pre) :
    deriveZone (String.mk (pre ++ '.' :: post)) = some (String.mk post) := by
  unfold deriveZone
  have ht : (String.mk (pre ++ '.' :: post)).toList = pre ++ '.' :: post := rfl
  rw [ht, indexOfDot_append pre post h]
  simp [drop_after_dot]

theorem waitLoop_spec (status : Nat → String) (subject cert_arn : String)
    (max_wait_secs wait_interval_secs : Nat) (re : Bool) :
    ∀ (fuel pollIdx elapsed : Nat) (r : WaitResult),
      r = waitLoop status subject cert_arn max_wait_secs wait_interval_secs re fuel pollIdx elapsed →
      elapsed ≤ max_wait_secs →
      elapsed + r.sleeps.sum ≤ max_wait_secs
      ∧ (∀ i (hi : i < r.sleeps.length),
          r.sleeps.get ⟨i, hi⟩
            = min wait_interval_secs (max_wait_secs - (elapsed + (r.sleeps.take i).sum)))
      ∧ pollIdx ≤ r.polls
      ∧ (∀ k, pollIdx ≤ k → k < r.polls → status k = "SUCCESS" →
          r.outcome = .success cert_arn ∧ r.polls = k + 1)
      ∧ (∀ s m, r.outcome = .timeoutErr s m →
          re = false ∧ s = subject ∧ m = max_wait_secs
            ∧ elapsed + r.sleeps.sum = max_wait_secs)
      ∧ (r.outcome = .nullResult → re = true) := by
  intro fuel
  induction fuel with
  | zero =>
    intro pollIdx elapsed r hr he
    subst hr
    simp only [waitLoop]
    refine ⟨by simpa using he, ?_, Nat.le_refl _, ?_, ?_, ?_⟩
    · intro i hi; simp at hi
    · intro k hk1 hk2 _; omega
    · intro s m hsm; simp at hsm
    · intro hn; simp at hn
  | succ fuel ih =>
    intro pollIdx elapsed r hr he
    by_cases hs : status pollIdx = "SUCCESS"
    · subst hr
      simp only [waitLoop, if_pos hs]
      refine ⟨by simpa using he, ?_, by omega, ?_, ?_, ?_⟩
      · intro i hi; simp at hi
      · intro k hk1 hk2 _
        exact ⟨by simp, by omega⟩
      · intro s m hsm; simp at hsm
      · intro hn; simp at hn
    · by_cases ht : max_wait_secs ≤ elapsed
      · have hrr : r = (if re then (⟨WaitOutcome.nullResult, pollIdx + 1, []⟩ : WaitResult)
            else ⟨WaitOutcome.timeoutErr subject max_wait_secs, pollIdx + 1, []⟩) := by
          rw [hr]; simp only [waitLoop, if_neg hs, if_pos ht]
        cases re with
        | true =>
          simp only [if_true] at hrr
          subst hrr
          dsimp only
          refine ⟨by simpa using he, ?_, by omega, ?_, ?_, fun _ => rfl⟩
          · intro i hi; simp at hi
          · intro k hk1 hk2 hks
            have hk : k = pollIdx := by omega
            exact absurd (hk ▸ hks) hs
          · intro s m hsm; simp at hsm
        | false =>
          simp only [Bool.false_eq_true, if_false] at hrr
          subst hrr
          dsimp only
          refine ⟨by simpa using he, ?_, by omega, ?_, ?_, ?_⟩
          · intro i hi; simp at hi
          · intro k hk1 hk2 hks
            have hk : k = pollIdx := by omega
            exact absurd (hk ▸ hks) hs
          · intro s m hsm
            injection hsm with h1 h2
            refine ⟨rfl, h1.symm, h2.symm, by simp; omega⟩
          · intro hn; simp at hn
      · push_neg at ht
        set slp := (if max_wait_secs < wait_interval_secs + elapsed
            then max_wait_secs - elapsed else wait_interval_secs) with hslp
        have hse : elapsed + slp ≤ max_wait_secs := by
          rw [hslp]; split <;> omega
        have hmin : slp = min wait_interval_secs (max_wait_secs - elapsed) := by
          rw [hslp]; split <;> omega
        have hstep : r = ⟨(waitLoop status subject cert_arn max_wait_secs wait_interval_secs re fuel (pollIdx + 1) (elapsed + slp)).outcome,
            (waitLoop status subject cert_arn max_wait_secs wait_interval_secs re fuel (pollIdx + 1) (elapsed + slp)).polls,
            slp :: (waitLoop status subject cert_arn max_wait_secs wait_interval_secs re fuel (pollIdx + 1) (elapsed + slp)).sleeps⟩ := by
          rw [hr]
          simp only [waitLoop, if_neg hs, if_neg (by omega : ¬ max_wait_secs ≤ elapsed)]
        obtain ⟨ih1, ih2, ih3, ih4, ih5, ih6⟩ :=
          ih (pollIdx + 1) (elapsed + slp)
            (waitLoop status subject cert_arn max_wait_secs wait_interval_secs re fuel (pollIdx + 1) (elapsed + slp)) rfl hse
        rw [hstep]
        dsimp only
        refine ⟨?_, ?_, by omega, ?_, ?_, ih6⟩
        · simp only [List.sum_cons]; omega
        · intro i hi
          cases i with
          | zero =>
            simpa using hmin
          | succ j =>
            have hj : j < (waitLoop status subject cert_arn max_wait_secs wait_interval_secs re fuel (pollIdx + 1) (elapsed + slp)).sleeps.length := by
              simpa using hi
            rw [List.get_cons_succ]
            rw [ih2 j hj]
            simp only [List.take_succ_cons, List.sum_cons]
            congr 1
            omega
        · intro k hk1 hk2 hks
          rcases Nat.eq_or_lt_of_le hk1 with heq | hlt
          · exact absurd (heq ▸ hks) hs
          · exact ih4 k (by omega) hk2 hks
        · intro s m hsm
          obtain ⟨j1, j2, j3, j4⟩ := ih5 s m hsm
          exact ⟨j1, j2, j3, by simp only [List.sum_cons]; omega⟩

theorem validateLoop_found (describe : Nat → List VOption) :
    ∀ (k fuel pollIdx : Nat) (vo : VOption) (rest : List VOption) (r : DnsRecord),
      (∀ j, j < k → ∀ vo2 rest2, describe (pollIdx + j) = vo2 :: rest2 → vo2.resourceRecord = none) →
      (∀ j, j < k → describe (pollIdx + j) ≠ []) →
      describe (pollIdx + k) = vo :: rest →
      vo.resourceRecord = some r →
      k < fuel →
      validateLoop describe fuel pollIdx
        = ⟨.found r vo.domainName, pollIdx + k + 1, List.replicate k 5⟩ := by
  intro k
  induction k with
  | zero =>
    intro fuel pollIdx vo rest r _ _ hk hr hf
    cases fuel with
    | zero => omega
    | succ fuel =>
      rw [Nat.add_zero] at hk
      simp only [validateLoop, hk, hr]
      rfl
  | succ k ih =>
    intro fuel pollIdx vo rest r hbefore hne hk hr hf
    cases fuel with
    | zero => omega
    | succ fuel =>
      have h0 : describe pollIdx ≠ [] := by
        have h1 := hne 0 (by omega)
        simpa using h1
      obtain ⟨vo0, rest0, hd0⟩ : ∃ vo0 rest0, describe pollIdx = vo0 :: rest0 := by
        cases hdp : describe pollIdx with
        | nil => exact absurd hdp h0
        | cons a l => exact ⟨a, l, rfl⟩
      have hrr0 : vo0.resourceRecord = none := by
        have h2 := hbefore 0 (by omega) vo0 rest0 (by simpa using hd0)
        exact h2
      have hrec := ih fuel (pollIdx + 1) vo rest r
        (fun j hj vo2 rest2 hd => hbefore (j + 1) (by omega) vo2 rest2
          (by rw [show pollIdx + (j + 1) = pollIdx + 1 + j by omega]; exact hd))
        (fun j hj => by
          rw [show pollIdx + 1 + j = pollIdx + (j + 1) by omega]
          exact hne (j + 1) (by omega))
        (by rw [show pollIdx + 1 + k = pollIdx + (k + 1) by omega]; exact hk)
        hr (by omega)
      simp only [validateLoop, hd0, hrr0, hrec]
      simp only [PollResult.mk.injEq, List.replicate_succ]
      refine ⟨by trivial, by omega, by trivial⟩

/-! ## Claim theorems -/

/-- C1: for every status trace, budget, interval, flag and fuel,
`wait_cert_validated` sleeps a total of at most
`max_wait_secs + wait_interval_secs` seconds, each performed sleep equals
`min(wait_interval_secs, max_wait_secs - elapsed)` for the time already
slept before it, and any performed poll observing status `SUCCESS` makes
the run return the certificate handle immediately at that poll. -/
theorem wait_returns_on_success_within_sleep_budget
    (status : Nat → String) (subject cert_arn : String)
    (max_wait_secs wait_interval_secs : Nat) (re : Bool) (fuel : Nat) :
    (wait_cert_validated status subject cert_arn max_wait_secs wait_interval_secs re fuel).sleeps.sum
        ≤ max_wait_secs + wait_interval_secs
    ∧ (∀ i (hi : i < (wait_cert_validated status subject cert_arn max_wait_secs wait_interval_secs re fuel).sleeps.length),
        (wait_cert_validated status subject cert_arn max_wait_secs wait_interval_secs re fuel).sleeps.get ⟨i, hi⟩
          = min wait_interval_secs
              (max_wait_secs -
                ((wait_cert_validated status subject cert_arn max_wait_secs wait_interval_secs re fuel).sleeps.take i).sum))
    ∧ (∀ k, k < (wait_cert_validated status subject cert_arn max_wait_secs wait_interval_secs re fuel).polls →
        status k = "SUCCESS" →
        (wait_cert_validated status subject cert_arn max_wait_secs wait_interval_secs re fuel).outcome
            = .success cert_arn
          ∧ (wait_cert_validated status subject cert_arn max_wait_secs wait_interval_secs re fuel).polls = k + 1) := by
  obtain ⟨h1, h2, h3, h4, h5, h6⟩ :=
    waitLoop_spec status subject cert_arn max_wait_secs wait_interval_secs re fuel 0 0
      (waitLoop status subject cert_arn max_wait_secs wait_interval_secs re fuel 0 0) rfl (Nat.zero_le _)
  simp only [wait_cert_validated]
  refine ⟨by omega, ?_, ?_⟩
  · intro i hi
    have h := h2 i hi
    simpa using h
  · intro k hk hks
    exact h4 k (Nat.zero_le k) hk hks

/-- Witness for C1: a run whose third poll (index 2) first observes
`SUCCESS` returns the handle at exactly that poll. -/
theorem wait_returns_on_success_within_sleep_budget_witness :
    (wait_cert_validated stThird "subj" "arn" 240 10 false 10).outcome = .success "arn"
    ∧ (wait_cert_validated stThird "subj" "arn" 240 10 false 10).polls = 2 + 1 :=
  (wait_returns_on_success_within_sleep_budget stThird "subj" "arn" 240 10 false 10).2.2
    2 (by decide) (by decide)

/-- C6: if a `wait_cert_validated` run ends in the timeout exception, the
flag was unset and the exception carries the certificate subject and a
seconds figure equal to the total time the run slept (the elapsed duration
in this timing model); a `None` result only arises with the flag set, the
exception only with the flag unset. -/
theorem wait_timeout_error_or_null
    (status : Nat → String) (subject cert_arn : String)
    (max_wait_secs wait_interval_secs : Nat) (re : Bool) (fuel : Nat) :
    (∀ s m, (wait_cert_validated status subject cert_arn max_wait_secs wait_interval_secs re fuel).outcome
          = .timeoutErr s m →
        re = false ∧ s = subject ∧ m = max_wait_secs
          ∧ (wait_cert_validated status subject cert_arn max_wait_secs wait_interval_secs re fuel).sleeps.sum = m)
    ∧ ((wait_cert_validated status subject cert_arn max_wait_secs wait_interval_secs re fuel).outcome
          = .nullResult → re = true)
    ∧ (re = true → ∀ s m,
        (wait_cert_validated status subject cert_arn max_wait_secs wait_interval_secs re fuel).outcome
          ≠ .timeoutErr s m)
    ∧ (re = false →
        (wait_cert_validated status subject cert_arn max_wait_secs wait_interval_secs re fuel).outcome
          ≠ .nullResult) := by
  obtain ⟨h1, h2, h3, h4, h5, h6⟩ :=
    waitLoop_spec status subject cert_arn max_wait_secs wait_interval_secs re fuel 0 0
      (waitLoop status subject cert_arn max_wait_secs wait_interval_secs re fuel 0 0) rfl (Nat.zero_le _)
  simp only [wait_cert_validated]
  refine ⟨?_, h6, ?_, ?_⟩
  · intro s m hsm
    obtain ⟨j1, j2, j3, j4⟩ := h5 s m hsm
    exact ⟨j1, j2, j3, by omega⟩
  · intro hre s m hsm
    obtain ⟨j1, _⟩ := h5 s m hsm
    rw [hre] at j1
    exact Bool.noConfusion j1
  · intro hre hn
    have j := h6 hn
    rw [hre] at j
    exact Bool.noConfusion j

/-- Witness for C6: a run with budget 7 and interval 3 that never succeeds
raises the timeout exception carrying the subject and 7, equal to the 7
seconds it slept in total. -/
theorem wait_timeout_error_or_null_witness :
    false = false ∧ "subj" = "subj" ∧ 7 = 7
    ∧ (wait_cert_validated stNever "subj" "arn" 7 3 false 10).sleeps.sum = 7 :=
  (wait_timeout_error_or_null stNever "subj" "arn" 7 3 false 10).1 "subj" 7 (by decide)

/-- C7: with `max_wait_secs = 0` and the first poll not `SUCCESS`, the run
reports the timeout (or `None` when `return_empty_on_timeout` is set) right
after the first status check: exactly one poll and no sleep. -/
theorem wait_zero_budget_times_out_after_first_poll
    (status : Nat → String) (subject cert_arn : String)
    (wait_interval_secs : Nat) (re : Bool) (fuel : Nat)
    (h0 : status 0 ≠ "SUCCESS") (hf : 1 ≤ fuel) :
    (wait_cert_validated status subject cert_arn 0 wait_interval_secs re fuel).polls = 1
    ∧ (wait_cert_validated status subject cert_arn 0 wait_interval_secs re fuel).sleeps = []
    ∧ (wait_cert_validated status subject cert_arn 0 wait_interval_secs re fuel).outcome
        = (if re then .nullResult else .timeoutErr subject 0) := by
  obtain ⟨fuel, rfl⟩ : ∃ f, fuel = f + 1 := ⟨fuel - 1, by omega⟩
  cases re with
  | true => simp [wait_cert_validated, waitLoop, h0]
  | false => simp [wait_cert_validated, waitLoop, h0]

/-- Witness for C7: the zero-budget never-successful run with the flag
unset times out at poll 1 with no sleep. -/
theorem wait_zero_budget_times_out_after_first_poll_witness :
    (wait_cert_validated stNever "subj" "arn" 0 10 false 5).polls = 1
    ∧ (wait_cert_validated stNever "subj" "arn" 0 10 false 5).sleeps = []
    ∧ (wait_cert_validated stNever "subj" "arn" 0 10 false 5).outcome
        = (if false then .nullResult else .timeoutErr "subj" 0) :=
  wait_zero_budget_times_out_after_first_poll stNever "subj" "arn" 10 false 5
    (by decide) (by decide)
/-- C2: splitting a domain at its first dot: `deriveZone` yields exactly
the characters after the first `.`, and both `remove_validation_record`
and the publish step of `validate` query Route53
(`list_hosted_zones_by_name`) with exactly that suffix as the zone name. -/
theorem zone_is_suffix_after_first_dot (pre post : List Char) (h : '.' ∉ pre)
    (lookup : Route53Client → String → List HostedZone)
    (rec rec0 : DnsRecord) (ev : Event) (uuid : String) :
    deriveZone (String.mk (pre ++ '.' :: post)) = some (String.mk post)
    ∧ (remove_validation_record lookup (String.mk (pre ++ '.' :: post)) rec
        (some ev) uuid).2.lookups.map LookupCall.dnsName = [String.mk post]
    ∧ (validate (fun _ => [⟨String.mk (pre ++ '.' :: post), some rec0⟩]) lookup
        "arn" (some ev) uuid 1).trace.lookups.map LookupCall.dnsName = [String.mk post] := by
  have hz := deriveZone_split pre post h
  refine ⟨hz, ?_, ?_⟩
  · simp only [remove_validation_record, hz, route53_client]
    cases lookup (route53ClientOf uuid ev) (String.mk post) <;> simp
  · have hrec := validateLoop_found
      (fun _ => [(⟨String.mk (pre ++ '.' :: post), some rec0⟩ : VOption)]) 0 1 0
      ⟨String.mk (pre ++ '.' :: post), some rec0⟩ [] rec0
      (fun j hj => absurd hj (by omega)) (fun j hj => absurd hj (by omega))
      rfl rfl (by omega)
    simp only [validate, hrec, create_route53_record, route53_client, hz]
    cases lookup (route53ClientOf uuid ev) (String.mk post) <;> simp

/-- Witness for C2 at the spec's example: `app.example.com` derives
`example.com`, and both DNS paths look that zone up. -/
theorem zone_is_suffix_after_first_dot_witness :
    deriveZone (String.mk (['a', 'p', 'p'] ++ '.' :: "example.com".toList))
        = some (String.mk "example.com".toList)
    ∧ (remove_validation_record oneZoneLookup
        (String.mk (['a', 'p', 'p'] ++ '.' :: "example.com".toList)) sampleRec
        (some plainEvent) "sess").2.lookups.map LookupCall.dnsName
          = [String.mk "example.com".toList]
    ∧ (validate (fun _ => [⟨String.mk (['a', 'p', 'p'] ++ '.' :: "example.com".toList), some cxRec2⟩])
        oneZoneLookup "arn" (some plainEvent) "sess" 1).trace.lookups.map LookupCall.dnsName
          = [String.mk "example.com".toList] :=
  zone_is_suffix_after_first_dot ['a', 'p', 'p'] "example.com".toList (by decide)
    oneZoneLookup sampleRec cxRec2 plainEvent "sess"

/-- C4: any change batch the publish step issues is the single UPSERT of
the validation record with TTL 60, at most one per call and exactly one on
normal return; `remove_validation_record` likewise issues at most one
batch, exactly one on normal return, always the single DELETE change. -/
theorem one_upsert_per_publish_one_delete_per_remove
    (lookup : Route53Client → String → List HostedZone) (rec : DnsRecord)
    (validated_domain dns_zone domain : String) (event : Option Event) (uuid : String) :
    (∀ call ∈ (create_route53_record lookup rec validated_domain dns_zone event uuid).2.changes,
        call.changeBatch.changes
          = [⟨"UPSERT", ⟨rec.name, rec.type, 60, [rec.value]⟩⟩])
    ∧ (create_route53_record lookup rec validated_domain dns_zone event uuid).2.changes.length ≤ 1
    ∧ ((create_route53_record lookup rec validated_domain dns_zone event uuid).1 = .ok () →
        (create_route53_record lookup rec validated_domain dns_zone event uuid).2.changes.length = 1)
    ∧ (∀ call ∈ (remove_validation_record lookup domain rec event uuid).2.changes,
        call.changeBatch.changes
          = [⟨"DELETE", ⟨rec.name, rec.type, 60, [rec.value]⟩⟩])
    ∧ (remove_validation_record lookup domain rec event uuid).2.changes.length ≤ 1
    ∧ ((remove_validation_record lookup domain rec event uuid).1 = .ok () →
        (remove_validation_record lookup domain rec event uuid).2.changes.length = 1) := by
  have hcreate : (∀ call ∈ (create_route53_record lookup rec validated_domain dns_zone event uuid).2.changes,
        call.changeBatch.changes
          = [⟨"UPSERT", ⟨rec.name, rec.type, 60, [rec.value]⟩⟩])
      ∧ (create_route53_record lookup rec validated_domain dns_zone event uuid).2.changes.length ≤ 1
      ∧ ((create_route53_record lookup rec validated_domain dns_zone event uuid).1 = .ok () →
          (create_route53_record lookup rec validated_domain dns_zone event uuid).2.changes.length = 1) := by
    rcases event with _ | ev
    · simp [create_route53_record, route53_client]
    · rcases hl : lookup (route53ClientOf uuid ev) dns_zone with _ | ⟨z, zs⟩ <;>
        simp [create_route53_record, route53_client, hl, upsert_update_request]
  have hremove : (∀ call ∈ (remove_validation_record lookup domain rec event uuid).2.changes,
        call.changeBatch.changes
          = [⟨"DELETE", ⟨rec.name, rec.type, 60, [rec.value]⟩⟩])
      ∧ (remove_validation_record lookup domain rec event uuid).2.changes.length ≤ 1
      ∧ ((remove_validation_record lookup domain rec event uuid).1 = .ok () →
          (remove_validation_record lookup domain rec event uuid).2.changes.length = 1) := by
    rcases hdz : deriveZone domain with _ | zone2
    · simp [remove_validation_record, hdz]
    · rcases event with _ | ev
      · simp [remove_validation_record, hdz, route53_client]
      · rcases hl : lookup (route53ClientOf uuid ev) zone2 with _ | ⟨z, zs⟩ <;>
          simp [remove_validation_record, hdz, route53_client, hl, delete_update_request]
  exact ⟨hcreate.1, hcreate.2.1, hcreate.2.2, hremove.1, hremove.2.1, hremove.2.2⟩

/-- Witness for C4: on a managed zone both calls return normally and issue
exactly one change batch each. -/
theorem one_upsert_per_publish_one_delete_per_remove_witness :
    (create_route53_record oneZoneLookup sampleRec "app.example.com" "example.com"
        (some plainEvent) "sess").2.changes.length = 1
    ∧ (remove_validation_record oneZoneLookup "app.example.com" sampleRec
        (some plainEvent) "sess").2.changes.length = 1 := by
  have h := one_upsert_per_publish_one_delete_per_remove oneZoneLookup sampleRec
    "app.example.com" "example.com" "app.example.com" (some plainEvent) "sess"
  exact ⟨h.2.2.1 (by decide), h.2.2.2.2.2 (by decide)⟩

/-- C5: when the zone lookup returns no hosted zone, publishing and
removing both fail at once with the zone-not-found exception, after the
single lookup and without issuing any DNS change. -/
theorem zone_not_found_is_fatal_without_change
    (lookup : Route53Client → String → List HostedZone) (rec : DnsRecord)
    (validated_domain dns_zone domain : String) (ev : Event) (uuid : String)
    (hl : lookup (route53ClientOf uuid ev) dns_zone = [])
    (hdz : deriveZone domain = some dns_zone) :
    create_route53_record lookup rec validated_domain dns_zone (some ev) uuid
      = (.raised (.exceptionMsg (zoneNotFoundMsg dns_zone)),
          ⟨[⟨route53ClientOf uuid ev, dns_zone⟩], []⟩)
    ∧ remove_validation_record lookup domain rec (some ev) uuid
      = (.raised (.exceptionMsg (zoneNotFoundMsg dns_zone)),
          ⟨[⟨route53ClientOf uuid ev, dns_zone⟩], []⟩) := by
  constructor
  · simp [create_route53_record, route53_client, hl]
  · simp [remove_validation_record, hdz, route53_client, hl]

/-- Witness for C5: with no managed zone at all, both calls raise the
zone-not-found exception for `example.com` and issue no change. -/
theorem zone_not_found_is_fatal_without_change_witness :
    create_route53_record emptyLookup sampleRec "app.example.com" "example.com"
        (some plainEvent) "sess"
      = (.raised (.exceptionMsg (zoneNotFoundMsg "example.com")),
          ⟨[⟨route53ClientOf "sess" plainEvent, "example.com"⟩], []⟩)
    ∧ remove_validation_record emptyLookup "app.example.com" sampleRec
        (some plainEvent) "sess"
      = (.raised (.exceptionMsg (zoneNotFoundMsg "example.com")),
          ⟨[⟨route53ClientOf "sess" plainEvent, "example.com"⟩], []⟩) :=
  zone_not_found_is_fatal_without_change emptyLookup sampleRec "app.example.com"
    "example.com" "app.example.com" plainEvent "sess" rfl (by decide)

/-- C9: `request` returns the ARN issued by ACM and makes an add-tags call
exactly when the event is present and carries a `Tags` entry; the tags are
applied to the returned certificate ARN. -/
theorem request_tags_exactly_when_present (acmArn : String) (event : Option Event) :
    (request acmArn event).1 = acmArn
    ∧ (event = none → (request acmArn event).2 = [])
    ∧ (∀ ev, event = some ev → ev.resourceProperties.tags = none →
        (request acmArn event).2 = [])
    ∧ (∀ ev ts, event = some ev → ev.resourceProperties.tags = some ts →
        (request acmArn event).2 = [(acmArn, ts)]) := by
  rcases event with _ | ev
  · refine ⟨rfl, fun _ => rfl, ?_, ?_⟩
    · intro ev h _
      exact Option.noConfusion h
    · intro ev ts h _
      exact Option.noConfusion h
  · refine ⟨by rcases hts : ev.resourceProperties.tags with _ | ts <;> simp [request, hts],
      fun h => Option.noConfusion h, ?_, ?_⟩
    · intro ev2 h htags
      injection h with h1
      subst h1
      simp [request, htags]
    · intro ev2 ts h htags
      injection h with h1
      subst h1
      simp [request, htags]

/-- Witness for C9: a tagged event yields exactly one add-tags call on the
returned ARN; an absent event yields none. -/
theorem request_tags_exactly_when_present_witness :
    (request "arn-1" (some taggedEvent)).2 = [("arn-1", [⟨"Environment", "prod"⟩])]
    ∧ (request "arn-1" none).2 = [] :=
  ⟨(request_tags_exactly_when_present "arn-1" (some taggedEvent)).2.2.2
      taggedEvent [⟨"Environment", "prod"⟩] rfl rfl,
    (request_tags_exactly_when_present "arn-1" none).2.1 rfl⟩
/-- C3: the claim fails on the code. `_route53_client` tests
`'CrossAccountDNSZoneIAMRole' in event` against the event's own keys, so
for an event that carries the role inside `ResourceProperties` (the shape
of the custom-resource invocation contract) and not at the top level, the
default-identity branch is taken: the client is the default one, and the
Route53 lookup and change of `remove_validation_record` both run under the
default caller identity instead of an assumed-role session. -/
theorem props_role_event_still_uses_default_client :
    propsRoleEvent.resourceProperties.crossAccountRole
        = some "arn:aws:iam::111122223333:role/dns-zone-role"
    ∧ propsRoleEvent.topLevelRole = none
    ∧ route53_client "sess" (some propsRoleEvent) = .ok .defaultClient
    ∧ (remove_validation_record oneZoneLookup "app.example.com" sampleRec
        (some propsRoleEvent) "sess").2.lookups.map LookupCall.client = [.defaultClient]
    ∧ (remove_validation_record oneZoneLookup "app.example.com" sampleRec
        (some propsRoleEvent) "sess").2.changes.map ChangeCall.client = [.defaultClient] := by
  decide

/-- C8 counterexample: the describe response lists an option matching the
requested domain `app.example.com` with record `cxRec2`, but its first
option is for `other.example.com` with record `cxRec1`; `validate` returns
`cxRec1`, not the matching option's record. -/
theorem validate_ignores_request_domain :
    (cxDescribe 0).find? (fun o => o.domainName == "app.example.com")
        = some ⟨"app.example.com", some cxRec2⟩
    ∧ (validate cxDescribe oneZoneLookup "arn" (some plainEvent) "sess" 3).outcome
        = .ok cxRec1
    ∧ cxRec1 ≠ cxRec2 := by
  decide

/-- C8 amended: `validate` polls the describe response at a fixed 5-second
interval, with no bound of its own, until the first validation option of
the response carries a `ResourceRecord`; it then uses that first option's
record regardless of its domain: if polls `0..k-1` saw a recordless first
option and poll `k` sees record `r` on its first option, the loop stops at
poll `k+1` having slept `k` times 5 seconds, and any record a successful
`validate` run returns is `r`. -/
theorem validate_returns_first_option_record
    (describe : Nat → List VOption) (lookup : Route53Client → String → List HostedZone)
    (cert_arn : String) (event : Option Event) (uuid : String) (k fuel : Nat)
    (vo : VOption) (rest : List VOption) (r : DnsRecord)
    (hbefore : ∀ j, j < k → ∀ vo2 rest2, describe j = vo2 :: rest2 → vo2.resourceRecord = none)
    (hne : ∀ j, j < k → describe j ≠ [])
    (hk : describe k = vo :: rest)
    (hr : vo.resourceRecord = some r)
    (hf : k < fuel) :
    validateLoop describe fuel 0 = ⟨.found r vo.domainName, k + 1, List.replicate k 5⟩
    ∧ (validate describe lookup cert_arn event uuid fuel).polls = k + 1
    ∧ (validate describe lookup cert_arn event uuid fuel).sleeps = List.replicate k 5
    ∧ (∀ rec2, (validate describe lookup cert_arn event uuid fuel).outcome = .ok rec2 →
        rec2 = r) := by
  have hloop := validateLoop_found describe k fuel 0 vo rest r
    (fun j hj => by simpa using hbefore j hj)
    (fun j hj => by simpa using hne j hj)
    (by simpa using hk) hr hf
  have hloop2 : validateLoop describe fuel 0
      = ⟨.found r vo.domainName, k + 1, List.replicate k 5⟩ := by
    rw [hloop]
    simp
  refine ⟨hloop2, ?_⟩
  simp only [validate, hloop2]
  rcases hdz : deriveZone vo.domainName with _ | z
  · simp [hdz]
  · rcases hc : create_route53_record lookup r vo.domainName z event uuid with ⟨pres, tr⟩
    cases pres <;> simp [hdz, hc]

/-- Witness for the amended C8: with the first challenge record visible on
poll 0, the loop stops at poll 1 with no sleep. -/
theorem validate_returns_first_option_record_witness :
    validateLoop cxDescribe 3 0
        = ⟨.found cxRec1 "other.example.com", 0 + 1, List.replicate 0 5⟩
    ∧ (validate cxDescribe oneZoneLookup "arn" (some plainEvent) "sess" 3).polls = 0 + 1
    ∧ (validate cxDescribe oneZoneLookup "arn" (some plainEvent) "sess" 3).sleeps
        = List.replicate 0 5 := by
  have h := validate_returns_first_option_record cxDescribe oneZoneLookup "arn"
    (some plainEvent) "sess" 0 3
    ⟨"other.example.com", some cxRec1⟩ [⟨"app.example.com", some cxRec2⟩] cxRec1
    (fun j hj => absurd hj (by omega)) (fun j hj => absurd hj (by omega))
    rfl rfl (by omega)
  exact ⟨h.1, h.2.1, h.2.2.1⟩

/-- C10: omitting the event makes client resolution raise `TypeError` (the
membership test on `None`) before any Route53 call:
`remove_validation_record` with `event=None` raises `TypeError` with an
empty Route53 trace, and a `validate` run with `event=None` whose poll
loop found the challenge record, and whose domain has a dot, raises
`TypeError` with an empty Route53 trace. -/
theorem omitted_event_raises_type_error
    (lookup : Route53Client → String → List HostedZone)
    (domain dns_zone : String) (rec : DnsRecord) (uuid : String)
    (hdz : deriveZone domain = some dns_zone)
    (describe : Nat → List VOption) (cert_arn : String) (fuel : Nat)
    (r : DnsRecord) (dn z : String)
    (hpoll : (validateLoop describe fuel 0).outcome = .found r dn)
    (hz : deriveZone dn = some z) :
    remove_validation_record lookup domain rec none uuid = (.raised .typeError, ⟨[], []⟩)
    ∧ (validate describe lookup cert_arn none uuid fuel).outcome = .err .typeError
    ∧ (validate describe lookup cert_arn none uuid fuel).trace = ⟨[], []⟩ := by
  have hv : validate describe lookup cert_arn none uuid fuel
      = ⟨.err .typeError, (validateLoop describe fuel 0).polls,
          (validateLoop describe fuel 0).sleeps, ⟨[], []⟩⟩ := by
    rcases hpr : validateLoop describe fuel 0 with ⟨o, pl, sl⟩
    rw [hpr] at hpoll
    dsimp only at hpoll
    subst hpoll
    simp [validate, hpr, hz, create_route53_record, route53_client]
  refine ⟨by simp [remove_validation_record, hdz, route53_client], ?_, ?_⟩
  · rw [hv]
  · rw [hv]

/-- Witness for C10 at concrete calls with the event omitted. -/
theorem omitted_event_raises_type_error_witness :
    remove_validation_record oneZoneLookup "app.example.com" sampleRec none "sess"
      = (.raised .typeError, ⟨[], []⟩)
    ∧ (validate cxDescribe oneZoneLookup "arn" none "sess" 3).outcome = .err .typeError
    ∧ (validate cxDescribe oneZoneLookup "arn" none "sess" 3).trace = ⟨[], []⟩ :=
  omitted_event_raises_type_error oneZoneLookup "app.example.com" "example.com"
    sampleRec "sess" (by decide) cxDescribe "arn" 3 cxRec1 "other.example.com"
    "example.com" (by decide) (by decide)

end Acm
